import Mathlib

/-!
Verification of the kmscon compositor/output lifecycle subsystem
(`src/output.h`).  The repository ships only the interface header, so the
behaviour of each operation is modelled from the specification of the
module; the C signatures (which calls return an `int` error code and which
return `void`) are taken from the header itself.
-/

namespace Kmscon

/-- Modelled from the spec: error kinds surfaced by the subsystem.
`EINVAL` is the invalid-state / invalid-argument code the header comment
says most functions return while asleep; `EACCES` is the
hardware-unavailable (acquisition) failure of `wake_up`. -/
inductive kmscon_err where
  | EINVAL : kmscon_err
  | EACCES : kmscon_err
deriving DecidableEq, Repr

/-- Modelled from the spec: a `struct kmscon_mode` — an immutable
description of one display timing/resolution (name, positive width and
height).  The native timing handle is opaque and not observable, so it is
omitted. -/
structure kmscon_mode where
  name : String
  width : Nat
  height : Nat
deriving DecidableEq, Repr

/-- Modelled from the spec: a `struct kmscon_framebuffer` — a
double-buffered render target sized to a specific mode.  Only its size is
observable at this interface (the two render-buffer handles are opaque). -/
structure kmscon_framebuffer where
  width : Nat
  height : Nat
deriving DecidableEq, Repr

/-- Modelled from the spec: a `struct kmscon_output` — one physical
connector, carrying a stable connection identity, its list of supported
modes, a nullable current mode, the hardware-preferred default mode, the
active flag (true iff a framebuffer is bound) and the awake flag that
mirrors the owning compositor's sleep state (false once the output is
unbound from its compositor). -/
structure kmscon_output where
  id : Nat
  modes : List kmscon_mode
  current : Option kmscon_mode
  defMode : Option kmscon_mode
  active : Bool
  fb : Option kmscon_framebuffer
  awake : Bool
deriving DecidableEq, Repr

/-- Modelled from the spec: a live connector as reported by the
hardware-enumeration collaborator (`list_connectors()`): a connection
identity, the advertised mode list, and the preferred-mode index. -/
structure hw_connector where
  id : Nat
  modes : List kmscon_mode
  preferred : Nat
deriving DecidableEq, Repr

/-- Modelled from the spec: a `struct kmscon_compositor` — the asleep
flag of the sleep/wake state machine, whether the hardware connection is
currently held, whether the single GPU context is alive, and the
insertion-ordered output sequence. -/
structure kmscon_compositor where
  asleep : Bool
  drmAcquired : Bool
  ctxAlive : Bool
  outputs : List kmscon_output
deriving DecidableEq, Repr

/-- Read accessor `kmscon_output_is_active`. -/
def kmscon_output_is_active (o : kmscon_output) : Bool := o.active

/-- Read accessor `kmscon_output_is_awake`. -/
def kmscon_output_is_awake (o : kmscon_output) : Bool := o.awake

/-- Read accessor `kmscon_output_get_current`. -/
def kmscon_output_get_current (o : kmscon_output) : Option kmscon_mode :=
  o.current

/-- Read accessor `kmscon_output_get_default`. -/
def kmscon_output_get_default (o : kmscon_output) : Option kmscon_mode :=
  o.defMode

/-- Read accessor `kmscon_output_get_modes` (head of the mode sequence is
the whole list here). -/
def kmscon_output_get_modes (o : kmscon_output) : List kmscon_mode :=
  o.modes

/-- Read accessor `kmscon_compositor_is_asleep`. -/
def kmscon_compositor_is_asleep (c : kmscon_compositor) : Bool := c.asleep

/-- Read accessor `kmscon_compositor_get_outputs`. -/
def kmscon_compositor_get_outputs (c : kmscon_compositor) :
    List kmscon_output := c.outputs

/-- Modelled from the spec: `kmscon_output_activate(output, mode)`.
Fails with an invalid-state error if the owning compositor is asleep
(the output's awake flag is down) or if `mode` does not belong to the
output's mode list; otherwise any existing framebuffer is destroyed, a
new framebuffer sized to `mode` is constructed, the current mode is set
and the output is marked active.  The C function returns an `int` code
and leaves the output untouched on failure, modelled as the pair of an
optional error and the resulting state. -/
def kmscon_output_activate (o : kmscon_output) (m : kmscon_mode) :
    Option kmscon_err × kmscon_output :=
  if o.awake = false then (some kmscon_err.EINVAL, o)
  else if m ∈ o.modes then
    (none, { o with
             fb := some { width := m.width, height := m.height }
             current := some m
             active := true })
  else (some kmscon_err.EINVAL, o)

/-- Modelled from the spec: `kmscon_output_deactivate(output)`.  Destroys
the framebuffer, clears the current mode and marks the output inactive;
it is idempotent when the output is already inactive.  The C function
returns `void`, so the model returns only the new state: no error can be
reported to the caller. -/
def kmscon_output_deactivate (o : kmscon_output) : kmscon_output :=
  if o.active then { o with fb := none, current := none, active := false }
  else o

/-- Modelled from the spec: construction of a fresh output during
reconciliation — identity and mode list from the live connector, default
mode the hardware-preferred entry, inactive, no framebuffer, awake. -/
def output_from_connector (c : hw_connector) : kmscon_output :=
  { id := c.id
    modes := c.modes
    current := none
    defMode := c.modes.get? c.preferred
    active := false
    fb := none
    awake := true }

/-- Modelled from the spec: the reconciliation algorithm.  Outputs whose
identity is absent from the live set are deactivated, marked not-awake
and unlinked (returned in the second component, still held by external
references); live identities with no matching owned output are appended
as fresh outputs in enumeration order; persisting outputs are left
untouched. -/
def kmscon_reconcile (c : kmscon_compositor) (live : List hw_connector) :
    kmscon_compositor × List kmscon_output :=
  let kept := c.outputs.filter
    (fun o => live.any (fun conn => conn.id == o.id))
  let removed := (c.outputs.filter
    (fun o => ! live.any (fun conn => conn.id == o.id))).map
    (fun o => { kmscon_output_deactivate o with awake := false })
  let added := (live.filter
    (fun conn => ! c.outputs.any (fun o => o.id == conn.id))).map
    output_from_connector
  ({ c with outputs := kept ++ added }, removed)

/-- Modelled from the spec: `kmscon_compositor_refresh(comp)` run against
the live connector set supplied by the enumeration collaborator.  While
asleep it fails with the invalid-state error and changes nothing;
otherwise it runs the reconciliation algorithm with no state
transition.  Result: error code, new compositor state, and the outputs
that were unlinked. -/
def kmscon_compositor_refresh (c : kmscon_compositor)
    (live : List hw_connector) :
    Option kmscon_err × kmscon_compositor × List kmscon_output :=
  if c.asleep then (some kmscon_err.EINVAL, c, [])
  else (none, (kmscon_reconcile c live).1, (kmscon_reconcile c live).2)

/-- Modelled from the spec: `kmscon_compositor_sleep(comp)`.  Transitions
to asleep and releases the hardware connection so another process can
claim the display; outputs stay linked with their framebuffers and the
context intact, but their awake mirror flags drop so mutating output
operations begin failing. -/
def kmscon_compositor_sleep (c : kmscon_compositor) : kmscon_compositor :=
  { c with
    asleep := true
    drmAcquired := false
    outputs := c.outputs.map (fun o => { o with awake := false }) }

/-- Modelled from the spec: `kmscon_compositor_wake_up(comp)`.  If the
display hardware cannot be reclaimed (`acquire_ok = false`) it fails
with the hardware-acquisition error and the compositor is left exactly
as it was (still asleep); otherwise it transitions back to awake,
raises the outputs' awake mirror flags, and runs the reconciliation
algorithm against the live connector set. -/
def kmscon_compositor_wake_up (c : kmscon_compositor) (acquire_ok : Bool)
    (live : List hw_connector) : Option kmscon_err × kmscon_compositor :=
  if acquire_ok = false then (some kmscon_err.EACCES, c)
  else
    (none, (kmscon_reconcile
      { c with
        asleep := false
        drmAcquired := true
        outputs := c.outputs.map (fun o => { o with awake := true }) }
      live).1)

/-- Modelled from the spec: the reference-counting protocol shared by
`kmscon_mode_ref/unref`, `kmscon_output_ref/unref` and
`kmscon_compositor_ref/unref`.  `count` is the live reference count,
`destroyCalls` counts how many times the destructor has run. -/
structure kmscon_ref_obj where
  count : Nat
  destroyCalls : Nat
deriving DecidableEq, Repr

/-- Modelled from the spec: `kmscon_*_new` yields an object holding one
reference, never yet destroyed. -/
def kmscon_obj_new : kmscon_ref_obj := { count := 1, destroyCalls := 0 }

/-- Modelled from the spec: `kmscon_*_ref` takes one more reference. -/
def kmscon_obj_ref (r : kmscon_ref_obj) : kmscon_ref_obj :=
  { r with count := r.count + 1 }

/-- Modelled from the spec: `kmscon_*_unref` drops one reference and runs
the destructor exactly when the last reference is dropped. -/
def kmscon_obj_unref (r : kmscon_ref_obj) : kmscon_ref_obj :=
  if r.count = 1 then { count := 0, destroyCalls := r.destroyCalls + 1 }
  else if r.count = 0 then r
  else { r with count := r.count - 1 }

/-- The per-output data invariant: active implies a current mode is set
and the framebuffer exists sized to that mode; inactive implies no
current mode and no framebuffer. -/
def outputInvB (o : kmscon_output) : Bool :=
  if o.active then
    match o.current with
    | some m => o.fb == some { width := m.width, height := m.height }
    | none => false
  else o.current == none && o.fb == none

/-- The per-output data invariant as a proposition. -/
def OutputInv (o : kmscon_output) : Prop := outputInvB o = true

instance (o : kmscon_output) : Decidable (OutputInv o) := by
  unfold OutputInv; infer_instance

/-- Sample mode (4x3) used to exercise the operations. -/
def mA : kmscon_mode := { name := "a", width := 4, height := 3 }

/-- Sample mode (2x1) used to exercise the operations. -/
def mB : kmscon_mode := { name := "b", width := 2, height := 1 }

/-- A framebuffer sized to `mA`. -/
def fbA : kmscon_framebuffer := { width := 4, height := 3 }

/-- An awake, inactive output supporting modes `mA` and `mB`. -/
def out_inactive : kmscon_output :=
  { id := 1
    modes := [mA, mB]
    current := none
    defMode := some mA
    active := false
    fb := none
    awake := true }

/-- An active output whose owning compositor is asleep (awake mirror
flag down), with a framebuffer sized to its current mode `mA`. -/
def out_asleep_active : kmscon_output :=
  { id := 2
    modes := [mA]
    current := some mA
    defMode := some mA
    active := true
    fb := some fbA
    awake := false }

/-- An output with identity 1 (the persisting connector "B" of the
reconciliation scenario), active with a framebuffer. -/
def outB : kmscon_output :=
  { id := 1
    modes := [mA, mB]
    current := some mA
    defMode := some mA
    active := true
    fb := some fbA
    awake := true }

/-- An output with identity 2 (the vanishing connector "C" of the
reconciliation scenario). -/
def outC : kmscon_output :=
  { id := 2
    modes := [mB]
    current := none
    defMode := some mB
    active := false
    fb := none
    awake := true }

/-- A live connector with identity 7 (the newly appearing "A"). -/
def connA : hw_connector := { id := 7, modes := [mA], preferred := 0 }

/-- A live connector with identity 1 (matching the owned `outB`). -/
def connB : hw_connector := { id := 1, modes := [mA, mB], preferred := 0 }

/-- An awake compositor owning `outB` and `outC`. -/
def comp_BC : kmscon_compositor :=
  { asleep := false, drmAcquired := true, ctxAlive := true, outputs := [outB, outC] }

/-- An asleep compositor owning `out_asleep_active`. -/
def comp_asleep : kmscon_compositor :=
  { asleep := true, drmAcquired := false, ctxAlive := true, outputs := [out_asleep_active] }

/-- C4: `activate(mode)` fails with the invalid-state error (leaving the
output untouched) if the owning compositor is asleep or if `mode` is not
in the output's mode list; otherwise it replaces any existing
framebuffer by a new one sized to `mode`, sets the current mode to
`mode` and marks the output active. -/
theorem activate_spec (o : kmscon_output) (m : kmscon_mode) :
    (kmscon_output_is_awake o = false →
      kmscon_output_activate o m = (some kmscon_err.EINVAL, o)) ∧
    (m ∉ o.modes →
      kmscon_output_activate o m = (some kmscon_err.EINVAL, o)) ∧
    (kmscon_output_is_awake o = true → m ∈ o.modes →
      kmscon_output_activate o m =
        (none, { o with fb := some { width := m.width, height := m.height }, current := some m, active := true })) := by
  refine ⟨fun h => ?_, fun h => ?_, fun h hm => ?_⟩
  · simp [kmscon_output_is_awake] at h
    simp [kmscon_output_activate, h]
  · by_cases ha : o.awake = false
    · simp [kmscon_output_activate, ha]
    · simp only [Bool.not_eq_false] at ha
      simp [kmscon_output_activate, ha, h]
  · simp [kmscon_output_is_awake] at h
    simp [kmscon_output_activate, h, hm]

/-- Witness for `activate_spec`: activating the awake output
`out_inactive` with its listed mode `mA` succeeds and installs a
framebuffer sized 4x3. -/
theorem activate_spec_witness :
    kmscon_output_is_awake out_inactive = true ∧ mA ∈ out_inactive.modes ∧
    kmscon_output_activate out_inactive mA =
      (none, { out_inactive with fb := some { width := mA.width, height := mA.height }, current := some mA, active := true }) :=
  ⟨rfl, by decide, (activate_spec out_inactive mA).2.2 rfl (by decide)⟩

/-- C6: `deactivate` destroys the framebuffer, clears the current mode
and marks the output inactive; on an already-inactive output it leaves
the state unchanged, and it is idempotent in general. -/
theorem deactivate_spec (o : kmscon_output) :
    (kmscon_output_is_active o = true →
      kmscon_output_deactivate o = { o with fb := none, current := none, active := false }) ∧
    (kmscon_output_is_active o = false → kmscon_output_deactivate o = o) ∧
    kmscon_output_deactivate (kmscon_output_deactivate o) = kmscon_output_deactivate o := by
  refine ⟨fun h => ?_, fun h => ?_, ?_⟩ <;>
    simp [kmscon_output_deactivate, kmscon_output_is_active] at *
  · simp [h]
  · simp [h]
  · by_cases h : o.active <;> simp [h]

/-- Witness for `deactivate_spec`: deactivating the active output
`out_asleep_active` clears its framebuffer, mode and active flag. -/
theorem deactivate_spec_witness :
    kmscon_output_is_active out_asleep_active = true ∧
    kmscon_output_deactivate out_asleep_active =
      { out_asleep_active with fb := none, current := none, active := false } :=
  ⟨rfl, (deactivate_spec out_asleep_active).1 rfl⟩

/-- C10: `kmscon_output_deactivate` returns `void`, so for every output
state — in particular when the owning compositor is asleep — the call
yields only the new output state and no error indication: it completes
(clearing framebuffer, mode and active flag when active, leaving the
state unchanged when inactive) instead of reporting the sleep-state
invalid-state rejection that the mutating-operation rule prescribes. -/
theorem deactivate_returns_no_error (o : kmscon_output)
    (h : kmscon_output_is_awake o = false) :
    (kmscon_output_is_active o = true →
      (kmscon_output_deactivate o).active = false ∧
      (kmscon_output_deactivate o).fb = none ∧
      (kmscon_output_deactivate o).current = none) ∧
    (kmscon_output_is_active o = false → kmscon_output_deactivate o = o) := by
  refine ⟨fun ha => ?_, fun ha => ?_⟩ <;>
    simp [kmscon_output_is_active] at ha <;>
    simp [kmscon_output_deactivate, ha]

/-- Witness for `deactivate_returns_no_error`: the asleep active output
`out_asleep_active` is deactivated without any error indication. -/
theorem deactivate_returns_no_error_witness :
    kmscon_output_is_awake out_asleep_active = false ∧
    (kmscon_output_deactivate out_asleep_active).active = false :=
  ⟨rfl, ((deactivate_returns_no_error out_asleep_active rfl).1 rfl).1⟩

/-- Counterexample to C1 as stated: `deactivate` is a mutating output
operation, yet called on an output whose owning compositor is asleep it
does not fail with an invalid-state error — it has no error channel at
all and actually mutates the state (the active flag drops and the
framebuffer is destroyed). -/
theorem asleep_mutation_counterexample :
    kmscon_output_is_awake out_asleep_active = false ∧
    kmscon_output_deactivate out_asleep_active ≠ out_asleep_active ∧
    (kmscon_output_deactivate out_asleep_active).active = false := by
  refine ⟨rfl, ?_, rfl⟩
  decide

/-- C1 (amended): while the owning compositor is asleep, `activate` —
including mode changes, which are performed through `activate` — fails
with the invalid-state error and leaves the output untouched; while
awake the same call succeeds absent other errors (the requested mode is
in the output's list).  `deactivate` is excluded: it returns `void` and
reports no error in either state. -/
theorem asleep_gates_mutations (o : kmscon_output) (m : kmscon_mode) :
    (kmscon_output_is_awake o = false →
      (kmscon_output_activate o m).1 = some kmscon_err.EINVAL ∧
      (kmscon_output_activate o m).2 = o) ∧
    (kmscon_output_is_awake o = true → m ∈ o.modes →
      (kmscon_output_activate o m).1 = none ∧
      kmscon_output_is_active (kmscon_output_activate o m).2 = true) := by
  refine ⟨fun h => ?_, fun h hm => ?_⟩ <;>
    simp [kmscon_output_is_awake] at h
  · simp [kmscon_output_activate, kmscon_output_is_active, h]
  · simp [kmscon_output_activate, kmscon_output_is_active, h, hm]

/-- Witness for `asleep_gates_mutations`: activating the asleep output
`out_asleep_active` fails with `EINVAL` and leaves it untouched. -/
theorem asleep_gates_mutations_witness :
    kmscon_output_is_awake out_asleep_active = false ∧
    (kmscon_output_activate out_asleep_active mA).1 = some kmscon_err.EINVAL ∧
    (kmscon_output_activate out_asleep_active mA).2 = out_asleep_active :=
  ⟨rfl, ((asleep_gates_mutations out_asleep_active mA).1 rfl).1,
    ((asleep_gates_mutations out_asleep_active mA).1 rfl).2⟩

/-- C8: `sleep` transitions to asleep and releases the hardware
connection, and changes nothing else structurally: every output remains
linked in the sequence (same identities, modes, current mode, default
mode, active flag and framebuffer, in the same order), no framebuffer
is destroyed, and the context is not destroyed. -/
theorem sleep_preserves_structure (c : kmscon_compositor) :
    kmscon_compositor_is_asleep (kmscon_compositor_sleep c) = true ∧
    (kmscon_compositor_sleep c).drmAcquired = false ∧
    (kmscon_compositor_sleep c).ctxAlive = c.ctxAlive ∧
    (kmscon_compositor_sleep c).outputs.map (fun o => o.id) = c.outputs.map (fun o => o.id) ∧
    (kmscon_compositor_sleep c).outputs.map (fun o => o.fb) = c.outputs.map (fun o => o.fb) ∧
    (kmscon_compositor_sleep c).outputs.map (fun o => o.modes) = c.outputs.map (fun o => o.modes) ∧
    (kmscon_compositor_sleep c).outputs.map (fun o => o.current) = c.outputs.map (fun o => o.current) ∧
    (kmscon_compositor_sleep c).outputs.map (fun o => o.defMode) = c.outputs.map (fun o => o.defMode) ∧
    (kmscon_compositor_sleep c).outputs.map (fun o => o.active) = c.outputs.map (fun o => o.active) ∧
    (kmscon_compositor_sleep c).outputs.length = c.outputs.length := by
  simp [kmscon_compositor_sleep, kmscon_compositor_is_asleep,
    List.map_map, Function.comp]

/-- C7: on an asleep compositor, `wake_up` with a failing hardware
acquisition fails with the hardware-acquisition error and performs no
state transition (the compositor is returned exactly as it was, still
asleep); with a successful acquisition it returns no error, the
compositor is awake, and the reconciliation algorithm has run on the
awoken state. -/
theorem wake_up_spec (c : kmscon_compositor) (live : List hw_connector)
    (h : kmscon_compositor_is_asleep c = true) :
    kmscon_compositor_wake_up c false live = (some kmscon_err.EACCES, c) ∧
    kmscon_compositor_is_asleep (kmscon_compositor_wake_up c false live).2 = true ∧
    (kmscon_compositor_wake_up c true live).1 = none ∧
    kmscon_compositor_is_asleep (kmscon_compositor_wake_up c true live).2 = false ∧
    (kmscon_compositor_wake_up c true live).2 =
      (kmscon_reconcile { c with asleep := false, drmAcquired := true, outputs := c.outputs.map (fun o => { o with awake := true }) } live).1 := by
  simp [kmscon_compositor_is_asleep] at h
  refine ⟨?_, ?_, ?_, ?_, ?_⟩ <;>
    simp [kmscon_compositor_wake_up, kmscon_compositor_is_asleep, h,
      kmscon_reconcile]

/-- Witness for `wake_up_spec`: waking the asleep compositor
`comp_asleep` with a failed acquisition leaves it asleep and unchanged;
with a successful acquisition it ends up awake. -/
theorem wake_up_spec_witness :
    kmscon_compositor_is_asleep comp_asleep = true ∧
    kmscon_compositor_wake_up comp_asleep false [connA] = (some kmscon_err.EACCES, comp_asleep) ∧
    kmscon_compositor_is_asleep (kmscon_compositor_wake_up comp_asleep true [connA]).2 = false :=
  ⟨rfl, (wake_up_spec comp_asleep [connA] rfl).1,
    (wake_up_spec comp_asleep [connA] rfl).2.2.2.1⟩

/-- Taking `n` further references on a fresh object yields count `n + 1`
with the destructor never run. -/
theorem obj_ref_iterate (n : Nat) :
    kmscon_obj_ref^[n] kmscon_obj_new = { count := n + 1, destroyCalls := 0 } := by
  induction n with
  | zero => rfl
  | succ k ih => rw [Function.iterate_succ_apply', ih]; rfl

/-- Unreferencing a destroyed object (count 0) is inert in the model. -/
theorem obj_unref_iterate_dead (k d : Nat) :
    kmscon_obj_unref^[k] { count := 0, destroyCalls := d } =
      { count := 0, destroyCalls := d } := by
  induction k with
  | zero => rfl
  | succ j ih => rw [Function.iterate_succ_apply]; exact ih

/-- Unreferencing `k` times from a live count `c ≥ 1`: while `k < c` the
count just decreases and the destructor never runs; once `k` reaches `c`
the destructor has run exactly once. -/
theorem obj_unref_iterate (c d k : Nat) (hc : 1 ≤ c) :
    kmscon_obj_unref^[k] { count := c, destroyCalls := d } =
      if k < c then { count := c - k, destroyCalls := d }
      else { count := 0, destroyCalls := d + 1 } := by
  induction k generalizing c with
  | zero => simp [Nat.lt_of_lt_of_le Nat.zero_lt_one hc]
  | succ j ih =>
    rw [Function.iterate_succ_apply]
    by_cases h1 : c = 1
    · subst h1
      have hstep : kmscon_obj_unref { count := 1, destroyCalls := d } =
          { count := 0, destroyCalls := d + 1 } := rfl
      rw [hstep, obj_unref_iterate_dead]
      have : ¬ (j + 1 < 1) := by omega
      simp [this]
    · have h2 : 2 ≤ c := by omega
      have hstep : kmscon_obj_unref { count := c, destroyCalls := d } =
          { count := c - 1, destroyCalls := d } := by
        unfold kmscon_obj_unref
        have hne1 : ¬ (c = 1) := h1
        have hne0 : ¬ (c = 0) := by omega
        simp [hne1, hne0]
      rw [hstep, ih (c - 1) (by omega)]
      by_cases hj : j < c - 1
      · have hj2 : j + 1 < c := by omega
        simp [hj, hj2]
        omega
      · have hj2 : ¬ (j + 1 < c) := by omega
        simp [hj, hj2]

/-- C9: for every `N ≥ 1`, an object holding `N` references (a fresh
object plus `N - 1` further refs) is destroyed exactly once by `N`
unrefs, and is never destroyed — its count stays at least 1 — by fewer
than `N` unrefs.  In particular, while a parent sequence still holds one
of the references, the other holders cannot have performed `N` unrefs,
so the object's resources are never released while it is still
linked. -/
theorem refcount_spec (N k : Nat) (hN : 1 ≤ N) :
    (kmscon_obj_unref^[N] (kmscon_obj_ref^[N - 1] kmscon_obj_new)).destroyCalls = 1 ∧
    (kmscon_obj_unref^[N] (kmscon_obj_ref^[N - 1] kmscon_obj_new)).count = 0 ∧
    (k < N →
      (kmscon_obj_unref^[k] (kmscon_obj_ref^[N - 1] kmscon_obj_new)).destroyCalls = 0 ∧
      1 ≤ (kmscon_obj_unref^[k] (kmscon_obj_ref^[N - 1] kmscon_obj_new)).count) := by
  have hobj : kmscon_obj_ref^[N - 1] kmscon_obj_new =
      { count := N, destroyCalls := 0 } := by
    rw [obj_ref_iterate]
    congr 1
    omega
  rw [hobj]
  have hfull := obj_unref_iterate N 0 N hN
  have hNN : ¬ (N < N) := by omega
  rw [hfull]
  simp only [hNN, if_false]
  refine ⟨by trivial, by trivial, fun hk => ?_⟩
  rw [obj_unref_iterate N 0 k hN]
  simp [hk]
  omega

/-- Witness for `refcount_spec`: two references, two unrefs — destroyed
exactly once; after only one unref the object is still alive. -/
theorem refcount_spec_witness :
    1 ≤ 2 ∧ 1 < 2 ∧
    (kmscon_obj_unref^[2] (kmscon_obj_ref^[2 - 1] kmscon_obj_new)).destroyCalls = 1 ∧
    (kmscon_obj_unref^[1] (kmscon_obj_ref^[2 - 1] kmscon_obj_new)).destroyCalls = 0 :=
  ⟨by decide, by decide, (refcount_spec 2 1 (by decide)).1,
    ((refcount_spec 2 1 (by decide)).2.2 (by decide)).1⟩

/-- Elements of the reconciled output sequence: each is either a kept
owned output whose identity is live, or a fresh output built from a live
connector that matched no owned output. -/
theorem reconcile_mem (c : kmscon_compositor) (live : List hw_connector)
    (o : kmscon_output) :
    o ∈ (kmscon_reconcile c live).1.outputs ↔
      (o ∈ c.outputs ∧ ∃ conn ∈ live, conn.id = o.id) ∨
      (∃ conn ∈ live, (∀ o2 ∈ c.outputs, o2.id ≠ conn.id) ∧
        o = output_from_connector conn) := by
  simp only [kmscon_reconcile, List.mem_append, List.mem_filter,
    List.mem_map, List.any_eq_true, beq_iff_eq, Bool.not_eq_true',
    List.any_eq_false, decide_eq_false_iff_not]
  constructor
  · rintro (⟨ho, conn, hconn, hid⟩ | ⟨conn, ⟨hconn, hnone⟩, rfl⟩)
    · exact Or.inl ⟨ho, conn, hconn, hid⟩
    · exact Or.inr ⟨conn, hconn, fun o2 ho2 => hnone o2 ho2, rfl⟩
  · rintro (⟨ho, conn, hconn, hid⟩ | ⟨conn, hconn, hnone, rfl⟩)
    · exact Or.inl ⟨ho, conn, hconn, hid⟩
    · exact Or.inr ⟨conn, ⟨hconn, fun o2 ho2 => hnone o2 ho2⟩, rfl⟩

/-- Every output surviving reconciliation has a live identity. -/
theorem reconcile_all_live (c : kmscon_compositor) (live : List hw_connector) :
    ∀ o ∈ (kmscon_reconcile c live).1.outputs,
      live.any (fun conn => conn.id == o.id) = true := by
  intro o ho
  rw [reconcile_mem] at ho
  rcases ho with ⟨_, conn, hconn, hid⟩ | ⟨conn, hconn, _, rfl⟩
  · exact List.any_eq_true.mpr ⟨conn, hconn, by simp [hid]⟩
  · exact List.any_eq_true.mpr ⟨conn, hconn, by simp [output_from_connector]⟩

/-- Every live identity is represented after reconciliation. -/
theorem reconcile_covers (c : kmscon_compositor) (live : List hw_connector) :
    ∀ conn ∈ live,
      (kmscon_reconcile c live).1.outputs.any (fun o => o.id == conn.id) = true := by
  intro conn hconn
  by_cases hex : ∃ o2 ∈ c.outputs, o2.id = conn.id
  · obtain ⟨o2, ho2, hid⟩ := hex
    refine List.any_eq_true.mpr ⟨o2, ?_, by simp [hid]⟩
    rw [reconcile_mem]
    exact Or.inl ⟨ho2, conn, hconn, hid.symm⟩
  · push_neg at hex
    refine List.any_eq_true.mpr ⟨output_from_connector conn, ?_, by simp [output_from_connector]⟩
    rw [reconcile_mem]
    exact Or.inr ⟨conn, hconn, hex, rfl⟩

/-- Reconciling a state where every owned identity is live and every
live identity is owned changes nothing structurally. -/
theorem reconcile_fixed (c1 : kmscon_compositor) (live : List hw_connector)
    (hall : ∀ o ∈ c1.outputs, live.any (fun conn => conn.id == o.id) = true)
    (hcov : ∀ conn ∈ live, c1.outputs.any (fun o => o.id == conn.id) = true) :
    (kmscon_reconcile c1 live).1.outputs = c1.outputs := by
  have hkept : c1.outputs.filter
      (fun o => live.any (fun conn => conn.id == o.id)) = c1.outputs :=
    List.filter_eq_self.mpr hall
  have hadd : live.filter
      (fun conn => ! c1.outputs.any (fun o => o.id == conn.id)) = [] := by
    rw [List.filter_eq_nil_iff]
    intro conn hconn
    simp [hcov conn hconn]
  simp only [kmscon_reconcile]
  rw [hkept, hadd]
  simp

/-- C2: for every awake compositor and live connector set, `refresh`
leaves the owned set equal — keyed by connector identity — to the live
set; every owned output with a live identity (the persisting `B`)
survives untouched, literally the same object with its framebuffer; and
every owned output whose identity is gone (the vanished `C`) is
unlinked from the sequence and handed back deactivated and
not-awake. -/
theorem refresh_reconciles (c : kmscon_compositor) (live : List hw_connector)
    (h : kmscon_compositor_is_asleep c = false) :
    ((kmscon_compositor_refresh c live).2.1.outputs.map (fun o => o.id)).toFinset =
      (live.map (fun conn => conn.id)).toFinset ∧
    (∀ o ∈ c.outputs, (∃ conn ∈ live, conn.id = o.id) →
      o ∈ (kmscon_compositor_refresh c live).2.1.outputs) ∧
    (∀ o ∈ c.outputs, (∀ conn ∈ live, conn.id ≠ o.id) →
      o ∉ (kmscon_compositor_refresh c live).2.1.outputs ∧
      { kmscon_output_deactivate o with awake := false } ∈ (kmscon_compositor_refresh c live).2.2 ∧
      kmscon_output_is_active { kmscon_output_deactivate o with awake := false } = false ∧
      kmscon_output_is_awake { kmscon_output_deactivate o with awake := false } = false) := by
  simp only [kmscon_compositor_is_asleep] at h
  have hr : kmscon_compositor_refresh c live =
      (none, (kmscon_reconcile c live).1, (kmscon_reconcile c live).2) := by
    simp [kmscon_compositor_refresh, h]
  rw [hr]
  refine ⟨?_, ?_, ?_⟩
  · apply Finset.ext
    intro a
    rw [List.mem_toFinset, List.mem_toFinset]
    constructor
    · intro ha
      obtain ⟨o, ho, rfl⟩ := List.mem_map.mp ha
      have := reconcile_all_live c live o ho
      obtain ⟨conn, hconn, hid⟩ := List.any_eq_true.mp this
      exact List.mem_map.mpr ⟨conn, hconn, by simpa using hid⟩
    · intro ha
      obtain ⟨conn, hconn, rfl⟩ := List.mem_map.mp ha
      have := reconcile_covers c live conn hconn
      obtain ⟨o, ho, hid⟩ := List.any_eq_true.mp this
      exact List.mem_map.mpr ⟨o, ho, by simpa using hid⟩
  · intro o ho ⟨conn, hconn, hid⟩
    rw [reconcile_mem]
    exact Or.inl ⟨ho, conn, hconn, hid⟩
  · intro o ho hgone
    refine ⟨?_, ?_, ?_, ?_⟩
    · intro hmem
      rw [reconcile_mem] at hmem
      rcases hmem with ⟨_, conn, hconn, hid⟩ | ⟨conn, hconn, _, rfl⟩
      · exact hgone conn hconn hid
      · exact hgone conn hconn rfl
    · simp only [kmscon_reconcile]
      refine List.mem_map.mpr ⟨o, List.mem_filter.mpr ⟨ho, ?_⟩, rfl⟩
      simp only [Bool.not_eq_true', List.any_eq_false]
      intro conn hconn
      simp [hgone conn hconn]
    · unfold kmscon_output_is_active kmscon_output_deactivate
      by_cases hact : o.active <;> simp [hact]
    · rfl

/-- Witness for `refresh_reconciles`: refreshing `comp_BC` (owning
identities 1 and 2) against live connectors with identities 7 and 1
keeps `outB` untouched and unlinks `outC`, handing it back
deactivated. -/
theorem refresh_reconciles_witness :
    kmscon_compositor_is_asleep comp_BC = false ∧
    outB ∈ comp_BC.outputs ∧ (∃ conn ∈ [connA, connB], conn.id = outB.id) ∧
    outB ∈ (kmscon_compositor_refresh comp_BC [connA, connB]).2.1.outputs ∧
    outC ∈ comp_BC.outputs ∧ (∀ conn ∈ [connA, connB], conn.id ≠ outC.id) ∧
    outC ∉ (kmscon_compositor_refresh comp_BC [connA, connB]).2.1.outputs ∧
    { kmscon_output_deactivate outC with awake := false } ∈ (kmscon_compositor_refresh comp_BC [connA, connB]).2.2 :=
  ⟨rfl, by decide, by decide,
    (refresh_reconciles comp_BC [connA, connB] rfl).2.1 outB (by decide) (by decide),
    by decide, by decide,
    ((refresh_reconciles comp_BC [connA, connB] rfl).2.2 outC (by decide) (by decide)).1,
    ((refresh_reconciles comp_BC [connA, connB] rfl).2.2 outC (by decide) (by decide)).2.1⟩

/-- C3: reconciliation is idempotent — for every awake compositor and
unchanged live connector set, a second `refresh` yields exactly the
output sequence produced by the first (same outputs, same order, hence
same identities in the same order). -/
theorem refresh_idempotent (c : kmscon_compositor) (live : List hw_connector)
    (h : kmscon_compositor_is_asleep c = false) :
    (kmscon_compositor_refresh (kmscon_compositor_refresh c live).2.1 live).2.1.outputs =
      (kmscon_compositor_refresh c live).2.1.outputs := by
  simp only [kmscon_compositor_is_asleep] at h
  have hasleep : (kmscon_reconcile c live).1.asleep = c.asleep := rfl
  have hr : kmscon_compositor_refresh c live =
      (none, (kmscon_reconcile c live).1, (kmscon_reconcile c live).2) := by
    simp [kmscon_compositor_refresh, h]
  rw [hr]
  have hr2 : kmscon_compositor_refresh (kmscon_reconcile c live).1 live =
      (none, (kmscon_reconcile (kmscon_reconcile c live).1 live).1,
        (kmscon_reconcile (kmscon_reconcile c live).1 live).2) := by
    simp [kmscon_compositor_refresh, hasleep, h]
  rw [hr2]
  exact reconcile_fixed (kmscon_reconcile c live).1 live
    (reconcile_all_live c live) (reconcile_covers c live)

/-- Witness for `refresh_idempotent`: a second refresh of `comp_BC`
against the same live set reproduces the first result exactly. -/
theorem refresh_idempotent_witness :
    kmscon_compositor_is_asleep comp_BC = false ∧
    (kmscon_compositor_refresh (kmscon_compositor_refresh comp_BC [connA, connB]).2.1 [connA, connB]).2.1.outputs =
      (kmscon_compositor_refresh comp_BC [connA, connB]).2.1.outputs :=
  ⟨rfl, refresh_idempotent comp_BC [connA, connB] rfl⟩

/-- A successful or failed `activate` preserves the output invariant. -/
theorem outputInv_activate (o : kmscon_output) (m : kmscon_mode)
    (h : OutputInv o) : OutputInv (kmscon_output_activate o m).2 := by
  unfold kmscon_output_activate
  by_cases ha : o.awake = false
  · simpa [ha] using h
  · simp only [Bool.not_eq_false] at ha
    by_cases hm : m ∈ o.modes
    · simp [ha, hm, OutputInv, outputInvB]
    · simpa [ha, hm] using h

/-- `deactivate` preserves the output invariant. -/
theorem outputInv_deactivate (o : kmscon_output) (h : OutputInv o) :
    OutputInv (kmscon_output_deactivate o) := by
  unfold kmscon_output_deactivate
  by_cases ha : o.active
  · simp [ha, OutputInv, outputInvB]
  · simpa [ha] using h

/-- A fresh output built from a live connector satisfies the output
invariant (inactive, no mode, no framebuffer). -/
theorem outputInv_from_connector (conn : hw_connector) :
    OutputInv (output_from_connector conn) := rfl

/-- The output invariant does not depend on the awake mirror flag. -/
theorem outputInv_awake_set (o : kmscon_output) (b : Bool)
    (h : OutputInv o) : OutputInv { o with awake := b } := h

/-- Reconciliation preserves the output invariant on both the surviving
sequence and the unlinked outputs. -/
theorem outputInv_reconcile (c : kmscon_compositor) (live : List hw_connector)
    (h : ∀ o ∈ c.outputs, OutputInv o) :
    (∀ o ∈ (kmscon_reconcile c live).1.outputs, OutputInv o) ∧
    (∀ o ∈ (kmscon_reconcile c live).2, OutputInv o) := by
  constructor
  · intro o ho
    rw [reconcile_mem] at ho
    rcases ho with ⟨ho, _⟩ | ⟨conn, _, _, rfl⟩
    · exact h o ho
    · exact outputInv_from_connector conn
  · intro o ho
    simp only [kmscon_reconcile, List.mem_map, List.mem_filter] at ho
    obtain ⟨o2, ⟨ho2, _⟩, rfl⟩ := ho
    exact outputInv_awake_set _ false (outputInv_deactivate o2 (h o2 ho2))

/-- C5: every operation preserves the output invariant — active implies
the current mode is set and a framebuffer sized to that mode exists,
inactive implies no current mode and no framebuffer.  Construction from
a live connector establishes it; `activate` (successful or failed),
`deactivate`, `sleep`, `refresh` (on both surviving and unlinked
outputs) and `wake_up` preserve it. -/
theorem output_invariant_preserved :
    (∀ conn : hw_connector, OutputInv (output_from_connector conn)) ∧
    (∀ (o : kmscon_output) (m : kmscon_mode), OutputInv o →
      OutputInv (kmscon_output_activate o m).2) ∧
    (∀ o : kmscon_output, OutputInv o → OutputInv (kmscon_output_deactivate o)) ∧
    (∀ c : kmscon_compositor, (∀ o ∈ c.outputs, OutputInv o) →
      ∀ o ∈ (kmscon_compositor_sleep c).outputs, OutputInv o) ∧
    (∀ (c : kmscon_compositor) (live : List hw_connector),
      (∀ o ∈ c.outputs, OutputInv o) →
      (∀ o ∈ (kmscon_compositor_refresh c live).2.1.outputs, OutputInv o) ∧
      (∀ o ∈ (kmscon_compositor_refresh c live).2.2, OutputInv o)) ∧
    (∀ (c : kmscon_compositor) (ok : Bool) (live : List hw_connector),
      (∀ o ∈ c.outputs, OutputInv o) →
      ∀ o ∈ (kmscon_compositor_wake_up c ok live).2.outputs, OutputInv o) := by
  refine ⟨outputInv_from_connector, outputInv_activate, outputInv_deactivate,
    ?_, ?_, ?_⟩
  · intro c h o ho
    simp only [kmscon_compositor_sleep, List.mem_map] at ho
    obtain ⟨o2, ho2, rfl⟩ := ho
    exact outputInv_awake_set o2 false (h o2 ho2)
  · intro c live h
    by_cases hs : c.asleep
    · constructor <;> intro o ho <;>
        simp only [kmscon_compositor_refresh, hs, if_true] at ho
      · exact h o ho
      · exact absurd ho (List.not_mem_nil o)
    · have hr : kmscon_compositor_refresh c live =
          (none, (kmscon_reconcile c live).1, (kmscon_reconcile c live).2) := by
        simp [kmscon_compositor_refresh, hs]
      rw [hr]
      exact outputInv_reconcile c live h
  · intro c ok live h
    cases ok with
    | false => exact h
    | true =>
      intro o ho
      have hmap : ∀ o2 ∈ c.outputs.map (fun o3 => { o3 with awake := true }),
          OutputInv o2 := by
        intro o2 ho2
        simp only [List.mem_map] at ho2
        obtain ⟨o3, ho3, rfl⟩ := ho2
        exact outputInv_awake_set o3 true (h o3 ho3)
      exact (outputInv_reconcile
        { c with asleep := false, drmAcquired := true, outputs := c.outputs.map (fun o3 => { o3 with awake := true }) }
        live hmap).1 o ho

/-- Witness for `output_invariant_preserved`: the invariant holds for
the active output `outB` and is preserved by deactivating it. -/
theorem output_invariant_preserved_witness :
    OutputInv outB ∧ OutputInv (kmscon_output_deactivate outB) :=
  ⟨by decide, output_invariant_preserved.2.2.1 outB (by decide)⟩

end Kmscon
